import Mathlib

/-!
Shallow embedding of the mount / mount-context / namespace-location layer of
the starnix VFS (mist-os), translated from
`zircon/kernel/lib/starnix/kernel/vfs/mount.cc` and
`zircon/kernel/lib/starnix/kernel/vfs/anon_node.cc`.

Mutable kernel-wide state (the monotonic mount-id counter and the lazily
initialized anonymous filesystem cell) is threaded explicitly as a
`KernelState` value.  `fbl::RefPtr` handles are modelled by plain values
(`Option` when the handle may be null), weak references by the `Option`
holding the result of upgrading them, and a kernel assertion failure
(`ASSERT`, `ZX_ASSERT`, or `ktl::optional::value()` on an empty optional,
which aborts in the kernel) by `ExecResult.assertFail`.
-/

namespace Starnix

/-- Result of running a piece of kernel code that may trip an assertion
(`ASSERT`, `ASSERT_MSG`, `ZX_ASSERT`) or abort by calling
`ktl::optional::value()` on an empty optional. -/
inductive ExecResult (α : Type) : Type where
  | ok (val : α)
  | assertFail
deriving Repr

/-- `MountFlags` from `starnix_uapi/mount_flags.h` is a `u32` bitmask; we model
it as a `Nat` mask.  The header is not part of the provided sources, so the
individual bit values are the Linux `MS_*` values the uapi mirrors. -/
abbrev MountFlags := Nat

namespace MountFlags

/-- `MountFlags::contains(other)`: every bit of `other` is set. -/
def contains (a b : MountFlags) : Bool := a &&& b == b

/-- `MountFlags::intersects(other)`: some bit is shared. -/
def intersects (a b : MountFlags) : Bool := a &&& b != 0

/-- `MountFlagsEnum::RDONLY` (`MS_RDONLY`). -/
def RDONLY : MountFlags := 0x1

/-- `MountFlagsEnum::NOSUID` (`MS_NOSUID`). -/
def NOSUID : MountFlags := 0x2

/-- `MountFlagsEnum::NODEV` (`MS_NODEV`). -/
def NODEV : MountFlags := 0x4

/-- `MountFlagsEnum::NOEXEC` (`MS_NOEXEC`). -/
def NOEXEC : MountFlags := 0x8

/-- `MountFlagsEnum::NOATIME` (`MS_NOATIME`). -/
def NOATIME : MountFlags := 0x400

/-- `MountFlagsEnum::NODIRATIME` (`MS_NODIRATIME`). -/
def NODIRATIME : MountFlags := 0x800

/-- `MountFlagsEnum::RELATIME` (`MS_RELATIME`). -/
def RELATIME : MountFlags := 0x200000

/-- Modelled from the spec: `mount_flags.h` is not among the provided sources;
`STORED_ON_MOUNT` is described only as the composite mask of the
"stored-on-mount" flag bits, so we take the union of the per-mount state
flags.  None of the theorems below depends on the concrete value, only on the
`intersects` test `Mount::new_with_root` performs against it. -/
def STORED_ON_MOUNT : MountFlags :=
  RDONLY ||| NOSUID ||| NODEV ||| NOEXEC ||| NOATIME ||| NODIRATIME ||| RELATIME

end MountFlags

/-- `errno(EROFS)`: read-only filesystem.  `Errno` is modelled by its number. -/
def EROFS : Nat := 30

/- The directory-entry / filesystem / node triangle.  Only the fields the
mount layer reads are modelled: a `FileSystem` holds a weak kernel reference
(`kernel_`, modelled by the `Option` result of `Lock()`-upgrading it, carrying
the kernel id) and its root directory entry handle (null before the root is
set); a `DirEntry` holds its `FsNode`; an `FsNode` knows its owning
`FileSystem` (`FsNode::fs()`). -/
mutual
inductive FileSystem : Type where
  | mk (kernel_ : Option Nat) (root_ : Option DirEntry)

inductive DirEntry : Type where
  | mk (node_ : FsNode)

inductive FsNode : Type where
  | mk (fs_ : FileSystem)
end

/-- The upgraded weak kernel reference stored in `FileSystem::kernel_`. -/
def FileSystem.kernel_ : FileSystem → Option Nat
  | .mk k _ => k

/-- The root directory-entry handle stored in the filesystem. -/
def FileSystem.root_ : FileSystem → Option DirEntry
  | .mk _ r => r

/-- `DirEntry::node_`. -/
def DirEntry.node_ : DirEntry → FsNode
  | .mk n => n

/-- `FsNode::fs()`. -/
def FsNode.fs : FsNode → FileSystem
  | .mk f => f

/-- Modelled from the spec: `file_system.h` is not among the provided sources;
`FileSystem::root()` returns the filesystem's root `DirEntryHandle` (fatal
when no root has been set). -/
def FileSystem.root (fs : FileSystem) : ExecResult DirEntry :=
  match fs.root_ with
  | some r => .ok r
  | none => .assertFail

/-- A `Mount` (`mount.h`): id, flags (the value guarded by `flags_.Lock()`),
root entry, owning filesystem, and the optional mountpoint from its
`state_`: a weak parent-`Mount` reference (modelled by the `Option` result of
`Lock()`-upgrading it) paired with the graft `DirEntry`. -/
inductive Mount : Type where
  | mk (id_ : Nat) (flags_ : MountFlags) (root_ : DirEntry) (fs_ : FileSystem)
       (mountpoint_ : Option (Option Mount × DirEntry))

/-- `Mount::id_`. -/
def Mount.id_ : Mount → Nat
  | .mk i _ _ _ _ => i

/-- The flag mask guarded by `Mount::flags_`. -/
def Mount.flags_ : Mount → MountFlags
  | .mk _ f _ _ _ => f

/-- `Mount::root_`. -/
def Mount.root_ : Mount → DirEntry
  | .mk _ _ r _ _ => r

/-- `Mount::fs_`. -/
def Mount.fs_ : Mount → FileSystem
  | .mk _ _ _ f _ => f

/-- `state_->mountpoint` (read under `state_.Read()`). -/
def Mount.mountpoint_ : Mount → Option (Option Mount × DirEntry)
  | .mk _ _ _ _ mp => mp

/-- `Mount::flags()`: `return *flags_.Lock();`. -/
def Mount.flags (m : Mount) : MountFlags := m.flags_

/-- A nullable `fbl::RefPtr<Mount>`. -/
abbrev MountHandle := Option Mount

/-- `MountInfo` (`mount_info.h`): the attached/detached mount context; a
detached context holds no mount handle. -/
structure MountInfo : Type where
  handle_ : MountHandle

/-- `MountInfo::detached()`: `return {ktl::nullopt};`. -/
def MountInfo.detached : MountInfo := ⟨none⟩

/-- `MountInfo::flags()`: the attached mount's flags, or fixed `NOATIME`
for a node that is not mounted. -/
def MountInfo.flags (mi : MountInfo) : MountFlags :=
  match mi.handle_ with
  | some m => m.flags
  | none => MountFlags.NOATIME

/-- `MountInfo::check_readonly_filesystem()`: `fit::error(errno(EROFS))` when
`flags()` contains `RDONLY`, else `fit::ok()`. -/
def MountInfo.check_readonly_filesystem (mi : MountInfo) : Except Nat Unit :=
  if MountFlags.contains mi.flags MountFlags.RDONLY then .error EROFS else .ok ()

/-- `NamespaceNode`: the (mount context, directory entry) pair path
resolution walks. -/
structure NamespaceNode : Type where
  mount_ : MountInfo
  entry_ : DirEntry

/-- Modelled from the spec: `namespace.(h|cc)` is not among the provided
sources; `NamespaceNode::New(mount, entry)` packages an upgraded parent-mount
handle with the graft entry, yielding `ktl::nullopt` when the parent mount has
been dropped (null handle). -/
def NamespaceNode.New (mount : MountHandle) (entry : DirEntry) : Option NamespaceNode :=
  match mount with
  | some m => some { mount_ := ⟨some m⟩, entry_ := entry }
  | none => none

/-- `Mount::root()`:
`NamespaceNode{.mount_ = MountInfo{.handle_ = RefPtr(this)}, .entry_ = root_}`. -/
def Mount.root (m : Mount) : NamespaceNode :=
  { mount_ := ⟨some m⟩, entry_ := m.root_ }

/-- `Mount::mountpoint()` as written in `mount.cc`: it reads
`state->mountpoint.value()` without checking `has_value()`, so when the mount
is a namespace root (`mountpoint` is `ktl::nullopt`) the kernel aborts on the
empty-optional access instead of returning `ktl::nullopt`; otherwise it
upgrades the weak parent reference and returns `NamespaceNode::New`'s result. -/
def Mount.mountpoint (m : Mount) : ExecResult (Option NamespaceNode) :=
  match m.mountpoint_ with
  | none => .assertFail
  | some (mount, entry) => .ok (NamespaceNode.New mount entry)

/-- The per-kernel mutable state the mount layer touches: the monotonic
mount-id counter `next_mount_id_` and the lazy `anon_fs_` cell.  `id` names
the kernel object itself (what a `WeakRef<Kernel>` upgrades to);
`anonConstructions` counts how many times the `AnonFs` constructor has run,
so that one-time initialization is observable in the model. -/
structure KernelState : Type where
  id : Nat
  next_mount_id : Nat
  anon_fs_ : Option FileSystem
  anonConstructions : Nat

/-- Modelled from the spec: `kernel.h` is not among the provided sources; the
kernel's monotonic mount-id counter `next_mount_id_.next()` returns the
current value and increments it. -/
def KernelState.nextMountId (k : KernelState) : Nat × KernelState :=
  (k.next_mount_id, { k with next_mount_id := k.next_mount_id + 1 })

/-- `WhatToMount` (`what.type` + `what.what`): a filesystem-backed mount or a
bind mount of an existing namespace node. -/
inductive WhatToMount : Type where
  | Fs (fs : FileSystem)
  | Bind (node : NamespaceNode)

/-- `Mount::new_with_root(root, flags)`:
asserts `!flags.intersects(STORED_ON_MOUNT)`, asserts the root's
filesystem still holds a live kernel (`ASSERT_MSG(kernel, "can't create mount
without a kernel")`), draws a fresh id from the kernel's counter and adopts a
new `Mount(id, flags, root, fs)` (whose `mountpoint` starts empty); the
`ZX_ASSERT(ac.check())` allocation check is modelled as always passing. -/
def Mount.new_with_root (root : DirEntry) (flags : MountFlags) (k : KernelState) :
    ExecResult (MountHandle × KernelState) :=
  let known_flags := MountFlags.STORED_ON_MOUNT
  if MountFlags.intersects flags known_flags then .assertFail
  else
    let fs := root.node_.fs
    match fs.kernel_ with
    | none => .assertFail
    | some _ =>
      let (id, k') := k.nextMountId
      .ok (some (Mount.mk id flags root fs none), k')

/-- `Mount::New(what, flags)`: a filesystem-backed request resolves to
`new_with_root(fs->root(), flags)`; a bind request returns the empty
`MountHandle()`. -/
def Mount.New (what : WhatToMount) (flags : MountFlags) (k : KernelState) :
    ExecResult (MountHandle × KernelState) :=
  match what with
  | .Fs fs =>
    match fs.root with
    | .ok r => Mount.new_with_root r flags k
    | .assertFail => .assertFail
  | .Bind _ => .ok (none, k)

/-- Modelled from the spec: `file_system.h` is not among the provided sources;
`FileSystem::New(kernel, options, ops, …)` allocates a fresh filesystem
holding a weak reference to the given kernel (no root set yet).  The cache
options and `FsNodeOps` play no role in the mount layer and are omitted. -/
def FileSystem.New (kernel : Nat) : FileSystem := FileSystem.mk (some kernel) none

/-- `anon_fs(kernel)` (`anon_node.cc`): if the kernel's `anon_fs_` cell is not
initialized, construct the anonymous filesystem and store it; return the
cell's content.  Sequential rendering of the unsynchronized lazy init. -/
def anon_fs (k : KernelState) : FileSystem × KernelState :=
  match k.anon_fs_ with
  | some fs => (fs, k)
  | none =>
    let fs := FileSystem.New k.id
    (fs, { k with anon_fs_ := some fs, anonConstructions := k.anonConstructions + 1 })

/-- One `anon_fs` call viewed as a transformer of the kernel state. -/
def anonStep (k : KernelState) : KernelState := (anon_fs k).2

/-- A sequence of `Mount::new_with_root` calls against the same kernel: each
request either constructs a mount (threading the kernel state) or trips an
assertion, in which case it contributes no mount and the counter is not
touched (the assertions fire before the counter is read). -/
def createMounts : List (DirEntry × MountFlags) → KernelState → List Mount × KernelState
  | [], k => ([], k)
  | (r, f) :: rest, k =>
    match Mount.new_with_root r f k with
    | .ok (some m, k') =>
      let (ms, k'') := createMounts rest k'
      (m :: ms, k'')
    | .ok (none, k') => createMounts rest k'
    | .assertFail => createMounts rest k

/-- A filesystem whose kernel reference upgrades (kernel id 0), no root. -/
def fs0 : FileSystem := FileSystem.mk (some 0) none

/-- A directory entry backed by `fs0`. -/
def e0 : DirEntry := DirEntry.mk (FsNode.mk fs0)

/-- A filesystem with a live kernel whose root entry is `e0`. -/
def fsR : FileSystem := FileSystem.mk (some 0) (some e0)

/-- A filesystem whose weak kernel reference no longer upgrades. -/
def fsDead : FileSystem := FileSystem.mk none none

/-- A directory entry backed by the dead-kernel filesystem. -/
def eDead : DirEntry := DirEntry.mk (FsNode.mk fsDead)

/-- A concrete kernel state: kernel id 0, mount counter at 1, anonymous
filesystem not yet initialized. -/
def k0 : KernelState := ⟨0, 1, none, 0⟩

/-- A namespace-root mount: its `state_->mountpoint` is `ktl::nullopt`. -/
def mRoot : Mount := Mount.mk 1 0 e0 fs0 none

/-- A mount whose stored flags are exactly `RDONLY`. -/
def mRdonly : Mount := Mount.mk 2 MountFlags.RDONLY e0 fs0 none

/-- C1: `Mount::mountpoint()` as written is not total.  On a namespace-root
mount, whose stored `mountpoint` is absent, the code reads
`state->mountpoint.value()` without checking `has_value()`, so the kernel
aborts on the empty-optional access instead of returning `ktl::nullopt`. -/
theorem mountpoint_aborts_on_namespace_root :
    Mount.mountpoint mRoot = ExecResult.assertFail := rfl

/-- C2: `MountInfo::check_readonly_filesystem()` returns `Err(EROFS)` iff
`RDONLY` is contained in `flags()`, and `Ok(())` otherwise; in particular a
detached context returns `Ok(())` and a context attached to a mount whose
flags are `RDONLY` returns `Err(EROFS)`. -/
theorem check_readonly_filesystem_spec :
    (∀ mi : MountInfo,
        mi.check_readonly_filesystem = Except.error EROFS ↔
          MountFlags.contains mi.flags MountFlags.RDONLY = true) ∧
    (∀ mi : MountInfo,
        MountFlags.contains mi.flags MountFlags.RDONLY = false →
          mi.check_readonly_filesystem = Except.ok ()) ∧
    MountInfo.detached.check_readonly_filesystem = Except.ok () ∧
    (∀ m : Mount, m.flags_ = MountFlags.RDONLY →
        MountInfo.check_readonly_filesystem ⟨some m⟩ = Except.error EROFS) := by
  refine ⟨fun mi => ?_, fun mi h => ?_, rfl, fun m h => ?_⟩
  · cases h : MountFlags.contains mi.flags MountFlags.RDONLY <;>
      simp [MountInfo.check_readonly_filesystem, h]
  · simp [MountInfo.check_readonly_filesystem, h]
  · have hf : MountInfo.flags ⟨some m⟩ = MountFlags.RDONLY := by
      simp [MountInfo.flags, Mount.flags, h]
    show (if MountFlags.contains (MountInfo.flags ⟨some m⟩) MountFlags.RDONLY then
        (Except.error EROFS : Except Nat Unit) else .ok ()) = .error EROFS
    rw [hf]
    rfl

/-- Witness for C2 at concrete contexts: the detached context is accepted and
the context attached to the `RDONLY` mount is refused with `EROFS`. -/
theorem check_readonly_filesystem_spec_witness :
    MountInfo.check_readonly_filesystem ⟨some mRdonly⟩ = Except.error EROFS ∧
    MountInfo.detached.check_readonly_filesystem = Except.ok () :=
  ⟨check_readonly_filesystem_spec.2.2.2 mRdonly rfl,
   check_readonly_filesystem_spec.2.2.1⟩

/-- C3: `MountInfo::flags()` returns the attached mount's flag set when a
mount handle is held, and exactly the fixed `NOATIME` mask (no other bits)
when detached; both branches are total. -/
theorem mountinfo_flags_spec :
    (∀ m : Mount, MountInfo.flags ⟨some m⟩ = m.flags) ∧
    MountInfo.detached.flags = MountFlags.NOATIME :=
  ⟨fun _ => rfl, rfl⟩

/-- C6: for a filesystem-backed `WhatToMount` (a filesystem whose root entry
is set), `Mount::New(what, flags)` returns exactly what
`new_with_root(fs->root(), flags)` returns. -/
theorem mount_new_fs_eq_new_with_root
    (fs : FileSystem) (r : DirEntry) (flags : MountFlags) (k : KernelState)
    (h : fs.root_ = some r) :
    Mount.New (WhatToMount.Fs fs) flags k = Mount.new_with_root r flags k := by
  simp [Mount.New, FileSystem.root, h]

/-- Witness for C6 at a concrete filesystem (`fsR`, root `e0`). -/
theorem mount_new_fs_eq_new_with_root_witness :
    Mount.New (WhatToMount.Fs fsR) 0 k0 = Mount.new_with_root e0 0 k0 :=
  mount_new_fs_eq_new_with_root fsR e0 0 k0 rfl

/-- C7: `Mount::root()` returns the `NamespaceNode` whose mount context is
attached to this very mount and whose entry is the mount's own root entry;
it is a total pure function of the mount. -/
theorem mount_root_spec (m : Mount) :
    m.root = { mount_ := ⟨some m⟩, entry_ := m.root_ } := rfl

/-- Witness for C7 at the concrete mount `mRoot`. -/
theorem mount_root_spec_witness :
    Mount.root mRoot = { mount_ := ⟨some mRoot⟩, entry_ := Mount.root_ mRoot } :=
  mount_root_spec mRoot

/-- C9: for every flags value, `Mount::New` on a `Bind` request returns the
empty `MountHandle` with the kernel state untouched (no id allocated) and no
assertion failure. -/
theorem mount_new_bind_null (n : NamespaceNode) (flags : MountFlags) (k : KernelState) :
    Mount.New (WhatToMount.Bind n) flags k = ExecResult.ok (none, k) := rfl

/-- `Mount::new_with_root` either trips an assertion or constructs the mount
whose id is the current counter value, whose flags/root/fs are the given
arguments, and bumps the counter by one. -/
theorem new_with_root_cases (root : DirEntry) (flags : MountFlags) (k : KernelState) :
    Mount.new_with_root root flags k = ExecResult.assertFail ∨
    Mount.new_with_root root flags k =
      ExecResult.ok (some (Mount.mk k.next_mount_id flags root root.node_.fs none),
        { k with next_mount_id := k.next_mount_id + 1 }) := by
  unfold Mount.new_with_root
  cases hf : MountFlags.intersects flags MountFlags.STORED_ON_MOUNT
  · rcases hk : root.node_.fs.kernel_ with _ | kid
    · left; simp [hf, hk]
    · right; simp [hf, hk, KernelState.nextMountId]
  · left; simp [hf]

/-- C4: the flags assertion in `Mount::new_with_root` is a construction-time
contract: whenever `flags` does not intersect `STORED_ON_MOUNT` (and the
kernel is live), construction succeeds and the mount stores exactly the given
flags, the given root entry and the root entry's filesystem; conversely every
mount `new_with_root` ever hands out has a flag set disjoint from
`STORED_ON_MOUNT`. -/
theorem new_with_root_flags_contract :
    (∀ (root : DirEntry) (flags : MountFlags) (k : KernelState),
        MountFlags.intersects flags MountFlags.STORED_ON_MOUNT = false →
        root.node_.fs.kernel_.isSome = true →
        ∃ m k', Mount.new_with_root root flags k = ExecResult.ok (some m, k') ∧
          m.flags_ = flags ∧ m.root_ = root ∧ m.fs_ = root.node_.fs) ∧
    (∀ (root : DirEntry) (flags : MountFlags) (k : KernelState)
        (m : Mount) (k' : KernelState),
        Mount.new_with_root root flags k = ExecResult.ok (some m, k') →
        MountFlags.intersects m.flags_ MountFlags.STORED_ON_MOUNT = false) := by
  constructor
  · intro root flags k hflags hlive
    obtain ⟨kid, hk⟩ := Option.isSome_iff_exists.mp hlive
    refine ⟨Mount.mk k.next_mount_id flags root root.node_.fs none,
            { k with next_mount_id := k.next_mount_id + 1 }, ?_, rfl, rfl, rfl⟩
    simp [Mount.new_with_root, hflags, hk, KernelState.nextMountId]
  · intro root flags k m k' h
    cases hf : MountFlags.intersects flags MountFlags.STORED_ON_MOUNT
    · rcases new_with_root_cases root flags k with hc | hc
      · rw [hc] at h; exact absurd h (by simp)
      · rw [hc] at h
        injection h with h1
        injection h1 with h2 h3
        injection h2 with h4
        rw [← h4]
        simpa [Mount.flags_] using hf
    · exfalso
      unfold Mount.new_with_root at h
      simp [hf] at h

/-- Witness for C4 at `flags = 0` on the live-kernel entry `e0`. -/
theorem new_with_root_flags_contract_witness :
    ∃ m k', Mount.new_with_root e0 0 k0 = ExecResult.ok (some m, k') ∧
      Mount.flags_ m = 0 ∧ Mount.root_ m = e0 ∧ Mount.fs_ m = e0.node_.fs :=
  new_with_root_flags_contract.1 e0 0 k0 rfl rfl

/-- C10: when the flags assertion passes, `Mount::new_with_root` requires a
live kernel: a dead weak kernel reference trips
`ASSERT_MSG(kernel, "can't create mount without a kernel")`, and a live one
makes the assertion unreachable and construction succeed — there is no
error-returning path. -/
theorem new_with_root_kernel_assert
    (root : DirEntry) (flags : MountFlags) (k : KernelState)
    (hflags : MountFlags.intersects flags MountFlags.STORED_ON_MOUNT = false) :
    (root.node_.fs.kernel_ = none →
        Mount.new_with_root root flags k = ExecResult.assertFail) ∧
    (∀ kid, root.node_.fs.kernel_ = some kid →
        ∃ m k', Mount.new_with_root root flags k = ExecResult.ok (some m, k')) := by
  constructor
  · intro hdead
    simp [Mount.new_with_root, hflags, hdead]
  · intro kid hlive
    exact ⟨Mount.mk k.next_mount_id flags root root.node_.fs none,
           { k with next_mount_id := k.next_mount_id + 1 },
           by simp [Mount.new_with_root, hflags, hlive, KernelState.nextMountId]⟩

/-- Witness for C10: the dead-kernel entry `eDead` trips the assertion, the
live-kernel entry `e0` constructs a mount. -/
theorem new_with_root_kernel_assert_witness :
    Mount.new_with_root eDead 0 k0 = ExecResult.assertFail ∧
    ∃ m k', Mount.new_with_root e0 0 k0 = ExecResult.ok (some m, k') :=
  ⟨(new_with_root_kernel_assert eDead 0 k0 rfl).1 rfl,
   (new_with_root_kernel_assert e0 0 k0 rfl).2 0 rfl⟩

/-- Ids handed out along a creation sequence are bounded below by the counter,
which never decreases. -/
theorem createMounts_id_lb (reqs : List (DirEntry × MountFlags)) (k : KernelState) :
    (∀ m ∈ (createMounts reqs k).1, k.next_mount_id ≤ m.id_) ∧
    k.next_mount_id ≤ (createMounts reqs k).2.next_mount_id := by
  induction reqs generalizing k with
  | nil => simp [createMounts]
  | cons p rest ih =>
    obtain ⟨r, f⟩ := p
    rcases new_with_root_cases r f k with h | h
    · simpa [createMounts, h] using ih k
    · have ih' := ih { k with next_mount_id := k.next_mount_id + 1 }
      simp only [createMounts, h]
      constructor
      · intro m hm
        rcases List.mem_cons.mp hm with hm | hm
        · subst hm; exact le_rfl
        · exact le_trans (Nat.le_succ _) (ih'.1 m hm)
      · exact le_trans (Nat.le_succ _) ih'.2

/-- The mounts of a creation sequence have strictly increasing ids. -/
theorem createMounts_pairwise_lt (reqs : List (DirEntry × MountFlags)) (k : KernelState) :
    (createMounts reqs k).1.Pairwise (fun a b => a.id_ < b.id_) := by
  induction reqs generalizing k with
  | nil => simp [createMounts]
  | cons p rest ih =>
    obtain ⟨r, f⟩ := p
    rcases new_with_root_cases r f k with h | h
    · simpa [createMounts, h] using ih k
    · simp only [createMounts, h]
      refine List.Pairwise.cons ?_ (ih _)
      intro m hm
      have hlb := (createMounts_id_lb rest { k with next_mount_id := k.next_mount_id + 1 }).1 m hm
      exact Nat.lt_of_lt_of_le (Nat.lt_succ_self _) hlb

/-- C5: every mount built by `new_with_root` takes its id from the kernel's
monotonic counter (third conjunct), so along any creation sequence on the
same kernel the ids are strictly increasing, and in particular pairwise
distinct. -/
theorem mount_ids_monotonic (reqs : List (DirEntry × MountFlags)) (k : KernelState) :
    ((createMounts reqs k).1.map Mount.id_).Pairwise (· < ·) ∧
    ((createMounts reqs k).1.map Mount.id_).Pairwise (· ≠ ·) ∧
    (∀ (r : DirEntry) (f : MountFlags) (k₀ : KernelState),
        Mount.new_with_root r f k₀ = ExecResult.assertFail ∨
        Mount.new_with_root r f k₀ =
          ExecResult.ok (some (Mount.mk k₀.next_mount_id f r r.node_.fs none),
            { k₀ with next_mount_id := k₀.next_mount_id + 1 })) := by
  have hlt : ((createMounts reqs k).1.map Mount.id_).Pairwise (· < ·) :=
    List.pairwise_map.mpr (createMounts_pairwise_lt reqs k)
  exact ⟨hlt, hlt.imp Nat.ne_of_lt, new_with_root_cases⟩

/-- A kernel state whose `anon_fs_` cell is already set returns the cell
content and does not change state. -/
theorem anon_fs_of_set (k : KernelState) (fs : FileSystem) (h : k.anon_fs_ = some fs) :
    anon_fs k = (fs, k) := by
  simp [anon_fs, h]

/-- C8: `anon_fs` is a sequential lazy singleton: the call is idempotent on
the kernel state, a first call on an uninitialized kernel stores the
filesystem it returns and runs the constructor exactly once, and every later
call (any number of steps later) returns the same handle without running the
constructor again. -/
theorem anon_fs_lazy_singleton (k : KernelState) :
    anon_fs (anonStep k) = ((anon_fs k).1, anonStep k) ∧
    (k.anon_fs_ = none →
      (anonStep k).anon_fs_ = some (anon_fs k).1 ∧
      (anonStep k).anonConstructions = k.anonConstructions + 1) ∧
    (∀ n : Nat, anonStep^[n] (anonStep k) = anonStep k) ∧
    (∀ n : Nat, (anon_fs (anonStep^[n] (anonStep k))).1 = (anon_fs k).1) := by
  have hpost : (anonStep k).anon_fs_ = some (anon_fs k).1 := by
    rcases h : k.anon_fs_ with _ | fs <;> simp [anonStep, anon_fs, h]
  have hfix : anon_fs (anonStep k) = ((anon_fs k).1, anonStep k) :=
    anon_fs_of_set _ _ hpost
  have hstep : ∀ n : Nat, anonStep^[n] (anonStep k) = anonStep k := by
    intro n
    induction n with
    | zero => rfl
    | succ n ih =>
      rw [Function.iterate_succ_apply', ih]
      show (anon_fs (anonStep k)).2 = anonStep k
      rw [hfix]
  refine ⟨hfix, fun h => ⟨hpost, ?_⟩, hstep, fun n => by rw [hstep n, hfix]⟩
  simp [anonStep, anon_fs, h]

/-- Witness for C8 at the uninitialized kernel `k0`: the first call stores
the handle it returns and runs the constructor once. -/
theorem anon_fs_lazy_singleton_witness :
    (anonStep k0).anon_fs_ = some (anon_fs k0).1 ∧
    (anonStep k0).anonConstructions = k0.anonConstructions + 1 :=
  (anon_fs_lazy_singleton k0).2.1 rfl

end Starnix
